import Mathlib

/-!
Verification of the portfolio backend (`src/backend/app/services.py`).

The two core functions are embedded shallowly:

* `get_assets` — seeds the pseudo-random generator with 42 and produces
  20 synthetic assets.  The CPython Mersenne Twister is external to the
  repository, so the generator is abstracted as a raw draw stream
  `seedFn : ℕ → ℕ → ℕ` (seed ↦ draw index ↦ raw word); each stdlib
  primitive (`random.random`, `random.randint`, `random.choices`,
  `random.uniform`) maps one raw word into its documented range exactly
  as the stdlib contract states.  All theorems quantify over `seedFn`,
  so they hold for any underlying pseudo-random algorithm.
* `calculate_insights` — a pure aggregation over the asset list.

Python floats are modelled as exact rationals, and the Python `round(x, n)`
as exact round-half-even at `n` decimal digits (`roundTo`).  Calendar
dates are modelled as day numbers (`ℤ`), so `date.today() +
timedelta(days=d)` becomes `today + d`.
-/

namespace Fence

/-- Asset status: the closed enumeration {active, defaulted, paid}
(`Literal["active", "defaulted", "paid"]` in `app/models.py`). -/
inductive Status where
  | active
  | defaulted
  | paid
deriving DecidableEq

/-- One financial receivable, as in `app/models.py`. -/
structure Asset where
  id : String
  nominal_value : ℚ
  status : Status
  due_date : ℤ
deriving DecidableEq

/-- One derived portfolio metric, as in `app/models.py`. -/
structure Insight where
  id : String
  name : String
  value : ℚ
deriving DecidableEq

/-- Round a rational to the nearest integer, ties to even: the rounding
used by the Python builtin `round`. -/
def roundHalfEven (q : ℚ) : ℤ :=
  let f := q.floor
  let r := q - f
  if r < 1 / 2 then f
  else if 1 / 2 < r then f + 1
  else if 2 ∣ f then f else f + 1

/-- Python rounding `round(q, n)`: round to `n` decimal digits, ties to even. -/
def roundTo (n : ℕ) (q : ℚ) : ℚ :=
  (roundHalfEven (q * 10 ^ n) : ℚ) / 10 ^ n

/-- The sum `sum(a.nominal_value for a in assets)`. -/
def sumVals (assets : List Asset) : ℚ :=
  (assets.map Asset.nominal_value).sum

/-- The function `calculate_insights` from `app/services.py`. -/
def calculate_insights (assets : List Asset) : List Insight :=
  let total_value := sumVals assets
  let active_assets := assets.filter (fun a => a.status == Status.active)
  let defaulted_assets := assets.filter (fun a => a.status == Status.defaulted)
  let paid_assets := assets.filter (fun a => a.status == Status.paid)
  let default_rate : ℚ :=
    if assets.isEmpty then 0 else (defaulted_assets.length : ℚ) / (assets.length : ℚ)
  let outstanding_debt := sumVals active_assets
  let collection_rate : ℚ :=
    if total_value = 0 then 0 else sumVals paid_assets / total_value
  [ { id := "insight-001", name := "total_portfolio_value", value := roundTo 2 total_value },
    { id := "insight-002", name := "default_rate", value := roundTo 4 default_rate },
    { id := "insight-003", name := "outstanding_debt", value := roundTo 2 outstanding_debt },
    { id := "insight-004", name := "collection_rate", value := roundTo 4 collection_rate } ]

/-- The four metric values, in output order. -/
def insightValues (assets : List Asset) : List ℚ :=
  (calculate_insights assets).map Insight.value

/-- The state of the pseudo-random generator: an infinite stream of raw
words together with the position of the next draw. -/
structure RNG where
  stream : ℕ → ℕ
  idx : ℕ

/-- Python `random.random()`: one draw, a rational in `[0, 1)` (CPython returns a
53-bit uniform `k / 2^53`). -/
def RNG.randUnit (g : RNG) : ℚ × RNG :=
  (((g.stream g.idx % 2 ^ 53 : ℕ) : ℚ) / 2 ^ 53, ⟨g.stream, g.idx + 1⟩)

/-- Python `random.randint(lo, hi)`: one draw, an integer in `[lo, hi]`. -/
def RNG.randint (g : RNG) (lo hi : ℤ) : ℤ × RNG :=
  (lo + ((g.stream g.idx % (hi + 1 - lo).toNat : ℕ) : ℤ), ⟨g.stream, g.idx + 1⟩)

/-- Python `random.uniform(a, b)`: computes `a + (b - a) * random.random()`. -/
def RNG.uniform (g : RNG) (a b : ℚ) : ℚ × RNG :=
  let u := g.randUnit
  (a + (b - a) * u.1, u.2)

/-- Python weighted choice over the three statuses with weights 0.6, 0.2, 0.2:
one uniform draw against the cumulative weights 0.6, 0.8, 1.0. -/
def RNG.choiceStatus (g : RNG) : Status × RNG :=
  let u := g.randUnit
  ((if u.1 < 6 / 10 then Status.active
    else if u.1 < 8 / 10 then Status.defaulted
    else Status.paid), u.2)

/-- Zero-pad a natural number to 3 digits. -/
def pad3 (n : ℕ) : String :=
  if n < 10 then "00" ++ toString n
  else if n < 100 then "0" ++ toString n
  else toString n

/-- The asset id string: the text asset- followed by the 3-digit number. -/
def assetId (n : ℕ) : String :=
  "asset-" ++ pad3 n

/-- The generation loop of `get_assets`: at 1-indexed position `i + 1`
draw, in order, a weighted status, a due-date day offset in `[-90, 180]`
and a nominal value `uniform(1000, 50000)` rounded to 2 decimals. -/
def genLoop (today : ℤ) : ℕ → ℕ → RNG → List Asset × RNG
  | _, 0, g => ([], g)
  | i, fuel + 1, g =>
    let s := g.choiceStatus
    let d := s.2.randint (-90) 180
    let v := d.2.uniform 1000 50000
    let a : Asset :=
      { id := assetId (i + 1), nominal_value := roundTo 2 v.1,
        status := s.1, due_date := today + d.1 }
    let rest := genLoop today (i + 1) fuel v.2
    (a :: rest.1, rest.2)

/-- The function `get_assets` from `app/services.py`: `random.seed(42)` replaces the
incoming generator state by the stream determined by seed 42, then the
loop produces 20 assets. -/
def get_assets (seedFn : ℕ → ℕ → ℕ) (today : ℤ) (_g : RNG) : List Asset × RNG :=
  genLoop today 0 20 ⟨seedFn 42, 0⟩

theorem ratFloor_eq_floor (q : ℚ) : q.floor = ⌊q⌋ := by
  rw [Rat.floor_def', Rat.floor_def]

theorem roundHalfEven_eq_ite (q : ℚ) :
    roundHalfEven q =
      if q - (⌊q⌋ : ℚ) < 1 / 2 then ⌊q⌋
      else if 1 / 2 < q - (⌊q⌋ : ℚ) then ⌊q⌋ + 1
      else if 2 ∣ ⌊q⌋ then ⌊q⌋ else ⌊q⌋ + 1 := by
  simp only [roundHalfEven, ratFloor_eq_floor]

theorem roundHalfEven_mono {a b : ℚ} (hab : a ≤ b) :
    roundHalfEven a ≤ roundHalfEven b := by
  rw [roundHalfEven_eq_ite, roundHalfEven_eq_ite]
  have hf : ⌊a⌋ ≤ ⌊b⌋ := Int.floor_le_floor hab
  rcases eq_or_lt_of_le hf with heq | hlt
  · have hfr : a - (⌊a⌋ : ℚ) ≤ b - (⌊b⌋ : ℚ) := by
      rw [← heq]; linarith
    rw [← heq]
    split_ifs <;> first | omega | linarith
  · have h1 : ((⌊a⌋ : ℤ) + 1) ≤ ⌊b⌋ := hlt
    split_ifs <;> omega

theorem roundHalfEven_intCast (k : ℤ) : roundHalfEven (k : ℚ) = k := by
  rw [roundHalfEven_eq_ite, Int.floor_intCast]
  norm_num

theorem roundHalfEven_eq_down (q : ℚ) (k : ℤ) (h1 : (k : ℚ) ≤ q)
    (h2 : q - k < 1 / 2) : roundHalfEven q = k := by
  have hk : ⌊q⌋ = k := by
    rw [Int.floor_eq_iff]
    constructor
    · exact h1
    · linarith
  rw [roundHalfEven_eq_ite, hk, if_pos (by linarith)]

theorem roundHalfEven_eq_up (q : ℚ) (k : ℤ) (h1 : 1 / 2 < q - k)
    (h2 : q < (k : ℚ) + 1) : roundHalfEven q = k + 1 := by
  have hk : ⌊q⌋ = k := by
    rw [Int.floor_eq_iff]
    constructor
    · linarith
    · linarith
  rw [roundHalfEven_eq_ite, hk, if_neg (by linarith), if_pos (by linarith)]

theorem roundTo_mono (n : ℕ) {a b : ℚ} (hab : a ≤ b) :
    roundTo n a ≤ roundTo n b := by
  have hpow : (0 : ℚ) < 10 ^ n := by positivity
  have h := roundHalfEven_mono (mul_le_mul_of_nonneg_right hab (le_of_lt hpow))
  unfold roundTo
  gcongr


theorem roundTo_intCast (n : ℕ) (k : ℤ) : roundTo n (k : ℚ) = k := by
  have hpow : (10 : ℚ) ^ n ≠ 0 := by positivity
  have hcast : ((k : ℚ) * 10 ^ n) = ((k * 10 ^ n : ℤ) : ℚ) := by push_cast; ring
  unfold roundTo
  rw [hcast, roundHalfEven_intCast]
  push_cast
  field_simp

theorem roundTo_zero (n : ℕ) : roundTo n 0 = 0 := by
  have h := roundTo_intCast n 0
  simpa using h

theorem roundTo_one (n : ℕ) : roundTo n 1 = 1 := by
  have h := roundTo_intCast n 1
  simpa using h

theorem roundTo_eq_down (n : ℕ) (q : ℚ) (k : ℤ) (h1 : (k : ℚ) ≤ q * 10 ^ n)
    (h2 : q * 10 ^ n - k < 1 / 2) : roundTo n q = (k : ℚ) / 10 ^ n := by
  unfold roundTo
  rw [roundHalfEven_eq_down (q * 10 ^ n) k h1 h2]

theorem roundTo_eq_up (n : ℕ) (q : ℚ) (k : ℤ) (h1 : 1 / 2 < q * 10 ^ n - k)
    (h2 : q * 10 ^ n < (k : ℚ) + 1) : roundTo n q = ((k : ℚ) + 1) / 10 ^ n := by
  unfold roundTo
  rw [roundHalfEven_eq_up (q * 10 ^ n) k h1 h2]
  push_cast
  ring

theorem status_beq_self (s : Status) : (s == s) = true := by
  cases s <;> rfl

theorem status_beq_ad : (Status.active == Status.defaulted) = false := rfl

theorem status_beq_ap : (Status.active == Status.paid) = false := rfl

theorem status_beq_da : (Status.defaulted == Status.active) = false := rfl

theorem status_beq_dp : (Status.defaulted == Status.paid) = false := rfl

theorem status_beq_pa : (Status.paid == Status.active) = false := rfl

theorem status_beq_pd : (Status.paid == Status.defaulted) = false := rfl

theorem sumVals_cons (a : Asset) (l : List Asset) :
    sumVals (a :: l) = a.nominal_value + sumVals l := by
  simp [sumVals]

theorem sumVals_nonneg {assets : List Asset}
    (h : ∀ a ∈ assets, 0 ≤ a.nominal_value) : 0 ≤ sumVals assets := by
  induction assets with
  | nil => simp [sumVals]
  | cons a l ih =>
    have ha := h a (List.mem_cons_self a l)
    have hl := ih fun x hx => h x (List.mem_cons_of_mem a hx)
    rw [sumVals_cons]
    linarith

theorem sumVals_filter_le (p : Asset → Bool) {assets : List Asset}
    (h : ∀ a ∈ assets, 0 ≤ a.nominal_value) :
    sumVals (assets.filter p) ≤ sumVals assets := by
  induction assets with
  | nil => simp [sumVals]
  | cons a l ih =>
    have ha := h a (List.mem_cons_self a l)
    have hl := ih fun x hx => h x (List.mem_cons_of_mem a hx)
    rw [List.filter_cons, sumVals_cons]
    by_cases hp : p a
    · simp only [hp, if_true, sumVals_cons]
      linarith
    · simp only [hp, if_false, Bool.false_eq_true]
      linarith

/-- C1: the three value formulas of `calculate_insights` — the total is the
2-decimal rounding of the sum over all assets, the outstanding debt is the
2-decimal rounding of the sum over active assets, and (when the un-rounded
total is nonzero) the collection rate is the 4-decimal rounding of the paid
sum divided by the un-rounded total. -/
theorem calculate_insights_formulas (assets : List Asset) :
    (insightValues assets).getD 0 0 = roundTo 2 (sumVals assets) ∧
    (insightValues assets).getD 2 0 =
      roundTo 2 (sumVals (assets.filter (fun a => a.status == Status.active))) ∧
    (sumVals assets ≠ 0 →
      (insightValues assets).getD 3 0 =
        roundTo 4 (sumVals (assets.filter (fun a => a.status == Status.paid)) /
          sumVals assets)) := by
  refine ⟨?_, ?_, fun h => ?_⟩
  · simp [insightValues, calculate_insights]
  · simp [insightValues, calculate_insights]
  · simp [insightValues, calculate_insights, if_neg h]

/-- Witness for C1 at a concrete one-asset portfolio with nonzero total. -/
theorem calculate_insights_formulas_witness :
    (insightValues [⟨"x", 1, Status.paid, 0⟩]).getD 0 0 =
      roundTo 2 (sumVals [⟨"x", 1, Status.paid, 0⟩]) ∧
    (insightValues [⟨"x", 1, Status.paid, 0⟩]).getD 2 0 =
      roundTo 2 (sumVals ([⟨"x", 1, Status.paid, 0⟩].filter
        (fun a => a.status == Status.active))) ∧
    (insightValues [⟨"x", 1, Status.paid, 0⟩]).getD 3 0 =
      roundTo 4 (sumVals ([⟨"x", 1, Status.paid, 0⟩].filter
        (fun a => a.status == Status.paid)) / sumVals [⟨"x", 1, Status.paid, 0⟩]) := by
  have h := calculate_insights_formulas [⟨"x", 1, Status.paid, 0⟩]
  exact ⟨h.1, h.2.1, h.2.2 (by norm_num [sumVals])⟩

/-- C5: for every input, `calculate_insights` returns exactly 4 insights
with ids insight-001 .. insight-004 and names in the fixed order
total_portfolio_value, default_rate, outstanding_debt, collection_rate. -/
theorem calculate_insights_shape (assets : List Asset) :
    (calculate_insights assets).map Insight.id =
      ["insight-001", "insight-002", "insight-003", "insight-004"] ∧
    (calculate_insights assets).map Insight.name =
      ["total_portfolio_value", "default_rate", "outstanding_debt", "collection_rate"] ∧
    (calculate_insights assets).length = 4 := by
  refine ⟨?_, ?_, ?_⟩ <;> simp [calculate_insights]

/-- C6: on the empty list all four metric values are 0 (both divisions are
guarded). -/
theorem calculate_insights_empty :
    calculate_insights [] =
      [⟨"insight-001", "total_portfolio_value", 0⟩,
       ⟨"insight-002", "default_rate", 0⟩,
       ⟨"insight-003", "outstanding_debt", 0⟩,
       ⟨"insight-004", "collection_rate", 0⟩] := by
  simp [calculate_insights, sumVals, roundTo_zero]

/-- C7: the end-to-end three-asset scenario A(1000, active),
B(2000, defaulted), C(3000, paid). -/
theorem calculate_insights_example :
    calculate_insights
      [⟨"A", 1000, Status.active, 0⟩, ⟨"B", 2000, Status.defaulted, 0⟩,
       ⟨"C", 3000, Status.paid, 0⟩] =
      [⟨"insight-001", "total_portfolio_value", 6000⟩,
       ⟨"insight-002", "default_rate", 3333 / 10000⟩,
       ⟨"insight-003", "outstanding_debt", 1000⟩,
       ⟨"insight-004", "collection_rate", 1 / 2⟩] := by
  have e1 : roundTo 2 (6000 : ℚ) = 6000 := by
    have h := roundTo_intCast 2 6000
    exact_mod_cast h
  have e2 : roundTo 4 ((1 : ℚ) / 3) = 3333 / 10000 := by
    have h := roundTo_eq_down 4 (1 / 3) 3333 (by norm_num) (by norm_num)
    rw [h]
    norm_num
  have e3 : roundTo 2 (1000 : ℚ) = 1000 := by
    have h := roundTo_intCast 2 1000
    exact_mod_cast h
  have e4 : roundTo 4 ((1 : ℚ) / 2) = 1 / 2 := by
    have h := roundTo_eq_down 4 (1 / 2) 5000 (by norm_num) (by norm_num)
    rw [h]
    norm_num
  simp only [calculate_insights, sumVals, List.filter, status_beq_self, status_beq_ad,
    status_beq_ap, status_beq_da, status_beq_dp, status_beq_pa, status_beq_pd]
  norm_num [e1, e2, e3, e4]

/-- C8 counterexample: on the two-asset list [paid 10, active (-4)] the
total portfolio value is positive, yet the collection-rate value returned
by `calculate_insights` exceeds 1. -/
theorem collection_rate_gt_one :
    0 < sumVals [⟨"a", 10, Status.paid, 0⟩, ⟨"b", -4, Status.active, 0⟩] ∧
    1 < (insightValues [⟨"a", 10, Status.paid, 0⟩, ⟨"b", -4, Status.active, 0⟩]).getD 3 0 := by
  constructor
  · norm_num [sumVals]
  · have e : roundTo 4 ((5 : ℚ) / 3) = 16667 / 10000 := by
      have h := roundTo_eq_up 4 (5 / 3) 16666 (by norm_num) (by norm_num)
      rw [h]
      norm_num
    simp only [insightValues, calculate_insights, sumVals, List.filter, status_beq_self,
      status_beq_ap, status_beq_pa, status_beq_ad, status_beq_pd]
    norm_num [e]

/-- C8 (amended): for every input list the default-rate value is in
[0, 1]; and whenever every nominal value is nonnegative and the total
portfolio value is strictly positive, the collection-rate value is in
[0, 1]. -/
theorem rates_bounded (assets : List Asset) :
    (0 ≤ (insightValues assets).getD 1 0 ∧ (insightValues assets).getD 1 0 ≤ 1) ∧
    ((∀ a ∈ assets, 0 ≤ a.nominal_value) → 0 < sumVals assets →
      0 ≤ (insightValues assets).getD 3 0 ∧ (insightValues assets).getD 3 0 ≤ 1) := by
  constructor
  · have hdr : 0 ≤ (if assets.isEmpty then (0 : ℚ)
        else ((assets.filter (fun a => a.status == Status.defaulted)).length : ℚ) /
          (assets.length : ℚ)) ∧
        (if assets.isEmpty then (0 : ℚ)
        else ((assets.filter (fun a => a.status == Status.defaulted)).length : ℚ) /
          (assets.length : ℚ)) ≤ 1 := by
      by_cases he : assets.isEmpty
      · simp [he]
      · have hlen : 0 < assets.length := by
          cases assets with
          | nil => simp at he
          | cons a l => simp
        have hle : ((assets.filter (fun a => a.status == Status.defaulted)).length : ℚ) ≤
            (assets.length : ℚ) := by
          exact_mod_cast List.length_filter_le _ _
        constructor
        · simp only [he, if_false, Bool.false_eq_true]
          positivity
        · simp only [he, if_false, Bool.false_eq_true]
          rw [div_le_one (by exact_mod_cast hlen)]
          exact hle
    have h0 := roundTo_mono 4 hdr.1
    have h1 := roundTo_mono 4 hdr.2
    rw [roundTo_zero] at h0
    rw [roundTo_one] at h1
    constructor
    · simpa [insightValues, calculate_insights] using h0
    · simpa [insightValues, calculate_insights] using h1
  · intro hnn hpos
    have hne : sumVals assets ≠ 0 := ne_of_gt hpos
    have hp0 : 0 ≤ sumVals (assets.filter (fun a => a.status == Status.paid)) :=
      sumVals_nonneg fun a ha => hnn a (List.mem_of_mem_filter ha)
    have hple : sumVals (assets.filter (fun a => a.status == Status.paid)) ≤ sumVals assets :=
      sumVals_filter_le _ hnn
    have hcr : 0 ≤ sumVals (assets.filter (fun a => a.status == Status.paid)) / sumVals assets ∧
        sumVals (assets.filter (fun a => a.status == Status.paid)) / sumVals assets ≤ 1 := by
      constructor
      · exact div_nonneg hp0 (le_of_lt hpos)
      · rw [div_le_one hpos]
        exact hple
    have h0 := roundTo_mono 4 hcr.1
    have h1 := roundTo_mono 4 hcr.2
    rw [roundTo_zero] at h0
    rw [roundTo_one] at h1
    constructor
    · simpa [insightValues, calculate_insights, if_neg hne] using h0
    · simpa [insightValues, calculate_insights, if_neg hne] using h1

/-- Witness for the amended C8 at a concrete one-asset portfolio. -/
theorem rates_bounded_witness :
    (0 ≤ (insightValues [⟨"x", 1, Status.paid, 0⟩]).getD 1 0 ∧
      (insightValues [⟨"x", 1, Status.paid, 0⟩]).getD 1 0 ≤ 1) ∧
    (0 ≤ (insightValues [⟨"x", 1, Status.paid, 0⟩]).getD 3 0 ∧
      (insightValues [⟨"x", 1, Status.paid, 0⟩]).getD 3 0 ≤ 1) := by
  refine ⟨(rates_bounded [⟨"x", 1, Status.paid, 0⟩]).1,
    (rates_bounded [⟨"x", 1, Status.paid, 0⟩]).2 ?_ ?_⟩
  · intro a ha
    rw [List.mem_singleton] at ha
    subst ha
    norm_num
  · norm_num [sumVals]

/-- The fields of an asset that `calculate_insights` reads: the nominal
value and the status (not the id or the due date). -/
def SameView (a b : Asset) : Prop :=
  a.nominal_value = b.nominal_value ∧ a.status = b.status

theorem sumVals_congr {as1 as2 : List Asset}
    (h : List.Forall₂ SameView as1 as2) : sumVals as1 = sumVals as2 := by
  induction h with
  | nil => rfl
  | cons hab _ ih => rw [sumVals_cons, sumVals_cons, hab.1, ih]

theorem filter_status_congr (s : Status) {as1 as2 : List Asset}
    (h : List.Forall₂ SameView as1 as2) :
    List.Forall₂ SameView (as1.filter (fun a => a.status == s))
      (as2.filter (fun a => a.status == s)) := by
  induction h with
  | nil => exact List.Forall₂.nil
  | @cons a b l1 l2 hab htl ih =>
    rw [List.filter_cons, List.filter_cons, hab.2]
    by_cases hp : (b.status == s) = true
    · rw [if_pos hp, if_pos hp]
      exact List.Forall₂.cons hab ih
    · rw [if_neg hp, if_neg hp]
      exact ih

/-- C9: `calculate_insights` reads only the nominal value and the status
of each asset — two lists agreeing pointwise on those two fields (ids and
due dates arbitrary) produce identical insights. -/
theorem calculate_insights_congr (as1 as2 : List Asset)
    (h : List.Forall₂ SameView as1 as2) :
    calculate_insights as1 = calculate_insights as2 := by
  have hlen := h.length_eq
  have hemp : as1.isEmpty = as2.isEmpty := by
    cases h <;> rfl
  have hsum := sumVals_congr h
  have hsa := sumVals_congr (filter_status_congr Status.active h)
  have hsp := sumVals_congr (filter_status_congr Status.paid h)
  have hld := (filter_status_congr Status.defaulted h).length_eq
  simp only [calculate_insights]
  rw [hsum, hsa, hsp, hld, hlen, hemp]

/-- Witness for C9: the two singleton lists differ in id and due date but
agree on value and status. -/
theorem calculate_insights_congr_witness :
    calculate_insights [⟨"x", 5, Status.active, 1⟩] =
      calculate_insights [⟨"y", 5, Status.active, 2⟩] :=
  calculate_insights_congr _ _ (List.Forall₂.cons ⟨rfl, rfl⟩ List.Forall₂.nil)

/-- C10: with nonnegative nominal values the outstanding-debt value is
nonnegative and bounded by the total-portfolio-value value. -/
theorem outstanding_debt_bounds (assets : List Asset)
    (h : ∀ a ∈ assets, 0 ≤ a.nominal_value) :
    0 ≤ (insightValues assets).getD 2 0 ∧
    (insightValues assets).getD 2 0 ≤ (insightValues assets).getD 0 0 := by
  have h1 : 0 ≤ sumVals (assets.filter (fun a => a.status == Status.active)) :=
    sumVals_nonneg fun a ha => h a (List.mem_of_mem_filter ha)
  have h2 : sumVals (assets.filter (fun a => a.status == Status.active)) ≤ sumVals assets :=
    sumVals_filter_le _ h
  have g1 := roundTo_mono 2 h1
  rw [roundTo_zero] at g1
  have g2 := roundTo_mono 2 h2
  constructor
  · simpa [insightValues, calculate_insights] using g1
  · simpa [insightValues, calculate_insights] using g2

/-- Witness for C10 at a concrete two-asset portfolio. -/
theorem outstanding_debt_bounds_witness :
    0 ≤ (insightValues [⟨"x", 2, Status.active, 0⟩, ⟨"y", 3, Status.paid, 0⟩]).getD 2 0 ∧
    (insightValues [⟨"x", 2, Status.active, 0⟩, ⟨"y", 3, Status.paid, 0⟩]).getD 2 0 ≤
      (insightValues [⟨"x", 2, Status.active, 0⟩, ⟨"y", 3, Status.paid, 0⟩]).getD 0 0 := by
  refine outstanding_debt_bounds _ ?_
  intro a ha
  rw [List.mem_cons] at ha
  rcases ha with ha | ha
  · subst ha
    norm_num
  · rw [List.mem_singleton] at ha
    subst ha
    norm_num

theorem roundTo_two_centi (q : ℚ) : ∃ k : ℤ, roundTo 2 q = (k : ℚ) / 100 := by
  refine ⟨roundHalfEven (q * 10 ^ 2), ?_⟩
  unfold roundTo
  norm_num

theorem roundTo_1000 : roundTo 2 (1000 : ℚ) = 1000 := by
  have h := roundTo_intCast 2 1000
  exact_mod_cast h

theorem roundTo_50000 : roundTo 2 (50000 : ℚ) = 50000 := by
  have h := roundTo_intCast 2 50000
  exact_mod_cast h

theorem genLoop_length (today : ℤ) :
    ∀ (fuel i : ℕ) (g : RNG), ((genLoop today i fuel g).1).length = fuel := by
  intro fuel
  induction fuel with
  | zero =>
    intro i g
    rfl
  | succ n ih =>
    intro i g
    rw [genLoop]
    simp only [List.length_cons]
    rw [ih]

theorem genLoop_ids (today : ℤ) :
    ∀ (fuel i : ℕ) (g : RNG),
      ((genLoop today i fuel g).1).map Asset.id = (List.range' (i + 1) fuel).map assetId := by
  intro fuel
  induction fuel with
  | zero =>
    intro i g
    rfl
  | succ n ih =>
    intro i g
    rw [genLoop, List.range'_succ]
    simp only [List.map_cons]
    rw [ih (i + 1)]

/-- C4: `get_assets` reseeds the generator with the constant 42 at entry,
so its output (both the asset list and the outgoing generator state) is a
function of the seed stream and of today only — any two calls agree
regardless of the incoming generator state. -/
theorem get_assets_deterministic (seedFn : ℕ → ℕ → ℕ) (today : ℤ) (g1 g2 : RNG) :
    get_assets seedFn today g1 = get_assets seedFn today g2 := rfl

/-- C3: `get_assets` returns exactly 20 assets whose ids are, in order,
asset-001 .. asset-020, pairwise distinct. -/
theorem get_assets_ids (seedFn : ℕ → ℕ → ℕ) (today : ℤ) (g : RNG) :
    ((get_assets seedFn today g).1).map Asset.id =
      ["asset-001", "asset-002", "asset-003", "asset-004", "asset-005",
       "asset-006", "asset-007", "asset-008", "asset-009", "asset-010",
       "asset-011", "asset-012", "asset-013", "asset-014", "asset-015",
       "asset-016", "asset-017", "asset-018", "asset-019", "asset-020"] ∧
    ((get_assets seedFn today g).1).length = 20 ∧
    (((get_assets seedFn today g).1).map Asset.id).Nodup := by
  have hids : ((get_assets seedFn today g).1).map Asset.id =
      (List.range' 1 20).map assetId :=
    genLoop_ids today 20 0 ⟨seedFn 42, 0⟩
  have hlit : (List.range' 1 20).map assetId =
      ["asset-001", "asset-002", "asset-003", "asset-004", "asset-005",
       "asset-006", "asset-007", "asset-008", "asset-009", "asset-010",
       "asset-011", "asset-012", "asset-013", "asset-014", "asset-015",
       "asset-016", "asset-017", "asset-018", "asset-019", "asset-020"] := by
    decide
  refine ⟨hids.trans hlit, genLoop_length today 20 0 _, ?_⟩
  rw [hids, hlit]
  decide

theorem genLoop_mem (today : ℤ) :
    ∀ (fuel i : ℕ) (g : RNG) (a : Asset), a ∈ (genLoop today i fuel g).1 →
      (a.status = Status.active ∨ a.status = Status.defaulted ∨ a.status = Status.paid) ∧
      (1000 ≤ a.nominal_value ∧ a.nominal_value ≤ 50000) ∧
      (∃ k : ℤ, a.nominal_value = (k : ℚ) / 100) ∧
      (∃ d : ℤ, -90 ≤ d ∧ d ≤ 180 ∧ a.due_date = today + d) := by
  intro fuel
  induction fuel with
  | zero =>
    intro i g a ha
    simp [genLoop] at ha
  | succ n ih =>
    intro i g a ha
    rw [genLoop, List.mem_cons] at ha
    rcases ha with rfl | ha
    · refine ⟨?_, ?_, ?_, ?_⟩
      · simp only [RNG.choiceStatus, RNG.randUnit]
        split_ifs
        · exact Or.inl rfl
        · exact Or.inr (Or.inl rfl)
        · exact Or.inr (Or.inr rfl)
      · simp only [RNG.uniform, RNG.randUnit, RNG.randint, RNG.choiceStatus]
        set w : ℕ := g.stream (g.idx + 1 + 1) % 2 ^ 53 with hw
        have hwlt : w < 2 ^ 53 := Nat.mod_lt _ (by norm_num)
        have hu1 : (0 : ℚ) ≤ (w : ℚ) / 2 ^ 53 := by positivity
        have hu2 : (w : ℚ) / 2 ^ 53 < 1 := by
          rw [div_lt_one (by positivity)]
          exact_mod_cast hwlt
        constructor
        · have hlo : (1000 : ℚ) ≤ 1000 + (50000 - 1000) * ((w : ℚ) / 2 ^ 53) := by nlinarith
          calc (1000 : ℚ) = roundTo 2 1000 := roundTo_1000.symm
            _ ≤ _ := roundTo_mono 2 hlo
        · have hhi : 1000 + (50000 - 1000) * ((w : ℚ) / 2 ^ 53) ≤ (50000 : ℚ) := by nlinarith
          calc roundTo 2 (1000 + (50000 - 1000) * ((w : ℚ) / 2 ^ 53)) ≤ roundTo 2 50000 :=
              roundTo_mono 2 hhi
            _ = 50000 := roundTo_50000
      · exact roundTo_two_centi _
      · simp only [RNG.randint, RNG.choiceStatus, RNG.randUnit]
        set m : ℕ := g.stream (g.idx + 1) % (180 + 1 - (-90) : ℤ).toNat with hm
        have hmlt : m < 271 := by
          have : ((180 : ℤ) + 1 - (-90)).toNat = 271 := by decide
          rw [hm, this]
          exact Nat.mod_lt _ (by norm_num)
        refine ⟨-90 + (m : ℤ), by omega, by omega, rfl⟩
    · exact ih (i + 1) _ a ha

/-- C2: every asset returned by `get_assets` has a status in
{active, defaulted, paid}, a nominal value in [1000, 50000] that is an
exact multiple of 1/100 (a value rounded to 2 decimal places), and a due
date equal to today plus an integer offset in [-90, 180] days. -/
theorem get_assets_ranges (seedFn : ℕ → ℕ → ℕ) (today : ℤ) (g : RNG) (a : Asset)
    (ha : a ∈ (get_assets seedFn today g).1) :
    (a.status = Status.active ∨ a.status = Status.defaulted ∨ a.status = Status.paid) ∧
    (1000 ≤ a.nominal_value ∧ a.nominal_value ≤ 50000) ∧
    (∃ k : ℤ, a.nominal_value = (k : ℚ) / 100) ∧
    (∃ d : ℤ, -90 ≤ d ∧ d ≤ 180 ∧ a.due_date = today + d) :=
  genLoop_mem today 20 0 ⟨seedFn 42, 0⟩ a ha

/-- Witness for C2: the first asset produced from the all-zeros stream
with today = 0. -/
theorem get_assets_ranges_witness :
    (Status.active = Status.active ∨ Status.active = Status.defaulted ∨
      Status.active = Status.paid) ∧
    ((1000 : ℚ) ≤ 1000 ∧ (1000 : ℚ) ≤ 50000) ∧
    (∃ k : ℤ, (1000 : ℚ) = (k : ℚ) / 100) ∧
    (∃ d : ℤ, -90 ≤ d ∧ d ≤ 180 ∧ (-90 : ℤ) = 0 + d) :=
  get_assets_ranges (fun _ _ => 0) 0 ⟨fun _ => 0, 0⟩
    ⟨"asset-001", 1000, Status.active, -90⟩ (by
      rw [get_assets, genLoop]
      refine List.mem_cons.mpr (Or.inl ?_)
      simp only [RNG.choiceStatus, RNG.randint, RNG.uniform, RNG.randUnit, assetId, pad3]
      norm_num [roundTo_1000]
      decide)

end Fence
